import Mathlib

/-!
Verification development for the driven-micro framework core
(the TypeScript message bus, handler template and unit of work).

The TypeScript source is embedded shallowly:
  - `Message`, `Domain`, `Repo`, `UnitOfWork` mirror the data carried by
    IMessage, IDomain, IDomainRepo and IUnitOfWork;
  - storage-session and logging side effects (setDbSession, closeDbSession,
    rollback and commit hooks, console.error calls) are tracked in an
    explicit `Trace` record threaded through the functions;
  - async functions returning a value or throwing are embedded as
    functions returning `Except String`, paired with the updated state;
  - the abstract hooks (a concrete handler `_handle` body, the `_commit`
    hook and the repository operations behind IDomainRepo) are embedded as
    behaviour parameters enumerating the outcomes the JavaScript runtime
    distinguishes, including a promise that is returned but not awaited.
-/

namespace DrivenMicro

/-- Kind tag of a message: the runtime class test `instanceof ICommand` /
`instanceof IEvent` in MessageBus, with a third case for objects that are
neither. -/
inductive MsgKind where
  | command
  | event
  | other
deriving DecidableEq, Repr

/-- Embedding of IMessage: the concrete variant identity
(`constructor.name`, used as routing key) plus the Command/Event kind tag. -/
structure Message where
  name : String
  kind : MsgKind
deriving DecidableEq, Repr

/-- Embedding of IDomain: the correlation id and the private ordered
pending-event buffer `_events` (exposed by the `events` getter, which
returns the live mutable array). The opaque `data` payload plays no role
in any claim and is omitted. -/
structure Domain where
  external_job_id : String
  events : List Message
deriving DecidableEq, Repr

/-- Embedding of the repository reference held by IUnitOfWork.
`domainRepo` is an IDomainRepo whose `seen` set is modelled as a list in
insertion order (a JavaScript Set iterates in insertion order);
`externalRepo` is a repository without a `seen` property, the case the
source tests with `if ('seen' in this._repo)`. -/
inductive Repo where
  | domainRepo (seen : List Domain)
  | externalRepo
deriving DecidableEq, Repr

/-- Embedding of the IUnitOfWork instance state: the accumulating harvested
event list `_events` and the `_repo` reference (`none` embeds the
definite-assignment state before the repository is injected, which is what
the `if (!this._repo)` guard of collectNewEvents tests). -/
structure UnitOfWork where
  events : List Message
  repo : Option Repo
deriving DecidableEq, Repr

/-- Embedding of IUnitOfWork.collectNewEvents. The source throws
`Repository not initialized` when `_repo` is unset; for a domain
repository it loops over `seen`, shifting every pending event off each
aggregate and pushing it onto `_events`, then returns `_events`; for a
repository without a `seen` property it returns `_events` unchanged.
Returns the updated unit of work (with drained aggregates) together with
the returned list. -/
def collectNewEvents (u : UnitOfWork) : Except String (UnitOfWork × List Message) :=
  match u.repo with
  | none => .error "Repository not initialized"
  | some .externalRepo => .ok (u, u.events)
  | some (.domainRepo seen) =>
      let evs := u.events ++ (seen.map Domain.events).flatten
      let seen1 := seen.map (fun d => { d with events := [] })
      .ok ({ events := evs, repo := some (.domainRepo seen1) }, evs)

/-- Effect trace: counters for the repository session calls
(setDbSession / closeDbSession), the subclass rollback and commit hooks,
and the two console.error sinks (the unit of work `_logException` line and
the handler `logError` line). -/
structure Trace where
  setDb : Nat
  closeDb : Nat
  rollbacks : Nat
  commits : Nat
  uowLogs : List String
  handlerLogs : List String
deriving DecidableEq, Repr

/-- The all-zero trace, the state before any session activity. -/
def Trace.init : Trace := ⟨0, 0, 0, 0, [], []⟩

/-- Embedding of IUnitOfWork.enter: `this._repo.setDbSession()`. -/
def uowEnter (t : Trace) : Trace := { t with setDb := t.setDb + 1 }

/-- Embedding of IUnitOfWork.exit(error?): when an error is supplied it is
logged via `_logException` and the `_rollback` hook runs; in every case
`closeDbSession` is then called. -/
def uowExit (err : Option String) (t : Trace) : Trace :=
  match err with
  | some e =>
      { t with
        uowLogs := t.uowLogs ++ ["Exception in UnitOfWork: Error - " ++ e]
        rollbacks := t.rollbacks + 1
        closeDb := t.closeDb + 1 }
  | none => { t with closeDb := t.closeDb + 1 }

/-- The console.error line produced by IHandler.logError when called from
the handle template with no context argument. -/
def logErrorLine (handlerName e : String) : String :=
  handlerName ++ " | Error: " ++ e ++ " | Context: undefined"

/-- Embedding of the IHandler instance state: the constructor name (used
by logError for the handler identity) and the outbound message list
`_return_messages`, which is initialised to `[]` when the instance is
constructed. The `uow` field of the source is passed separately to
`handle` so that the unit of work state can be threaded explicitly. -/
structure Handler where
  name : String
  return_messages : List Message
deriving DecidableEq, Repr

/-- Behaviour of a concrete `_handle` override: it may push some messages
through `addMessages` and then either return normally or throw. -/
inductive HandleOutcome where
  | ok (msgs : List Message)
  | throws (msgs : List Message) (e : String)
deriving DecidableEq, Repr

/-- Result of one IHandler.handle invocation: the value returned or error
thrown, the handler instance state afterwards, the unit of work state
afterwards (when one was attached), and the effect trace. -/
structure HandleResult where
  result : Except String (List Message)
  handler : Handler
  uow : Option UnitOfWork
  trace : Trace

/-- Embedding of the IHandler.handle template method. With a unit of work
attached: enter, run `_handle`, push the full list returned by
collectNewEvents onto `_return_messages`, commit, and return
`_return_messages`; on any error log it via logError and rethrow; in a
finally step call `this.uow.exit()` with no argument. Without a unit of
work: run `_handle` and return `_return_messages`, logging and rethrowing
on error. `hb` is the `_handle` behaviour and `cb` the `_commit` hook
behaviour (`.ok ()` commits, `.error e` throws). -/
def handle (h : Handler) (uowOpt : Option UnitOfWork) (hb : HandleOutcome)
    (cb : Except String Unit) (t : Trace) : HandleResult :=
  match uowOpt with
  | some u =>
      let t1 := uowEnter t
      match hb with
      | .throws msgs e =>
          let h1 : Handler := { h with return_messages := h.return_messages ++ msgs }
          let t2 := { t1 with handlerLogs := t1.handlerLogs ++ [logErrorLine h.name e] }
          ⟨.error e, h1, some u, uowExit none t2⟩
      | .ok msgs =>
          let h1 : Handler := { h with return_messages := h.return_messages ++ msgs }
          match collectNewEvents u with
          | .error e =>
              let t2 := { t1 with handlerLogs := t1.handlerLogs ++ [logErrorLine h.name e] }
              ⟨.error e, h1, some u, uowExit none t2⟩
          | .ok (u1, evs) =>
              let h2 : Handler := { h1 with return_messages := h1.return_messages ++ evs }
              match cb with
              | .error e =>
                  let t2 := { t1 with handlerLogs := t1.handlerLogs ++ [logErrorLine h.name e] }
                  ⟨.error e, h2, some u1, uowExit none t2⟩
              | .ok _ =>
                  let t2 := { t1 with commits := t1.commits + 1 }
                  ⟨.ok h2.return_messages, h2, some u1, uowExit none t2⟩
  | none =>
      match hb with
      | .ok msgs =>
          let h1 : Handler := { h with return_messages := h.return_messages ++ msgs }
          ⟨.ok h1.return_messages, h1, none, t⟩
      | .throws msgs e =>
          let h1 : Handler := { h with return_messages := h.return_messages ++ msgs }
          let t1 := { t with handlerLogs := t.handlerLogs ++ [logErrorLine h.name e] }
          ⟨.error e, h1, none, t1⟩

/-- Behaviour of one repository call made from inside a unit-of-work
envelope, distinguishing the three outcomes the JavaScript runtime
distinguishes at a call site: a synchronous throw, a promise that
resolves, and a promise that rejects. -/
inductive RepoCall where
  | throwsSync (e : String)
  | resolves
  | rejects (e : String)
deriving DecidableEq, Repr

/-- Outcome of a repository call at a call site that awaits the returned
promise: a rejection surfaces as a thrown error. -/
def awaitCall : RepoCall → Except String Unit
  | .throwsSync e => .error e
  | .resolves => .ok ()
  | .rejects e => .error e

/-- Outcome of a repository call at a call site that does not await the
returned promise: only a synchronous throw is observed; a rejected
promise is dropped and execution continues normally. -/
def droppedCall : RepoCall → Except String Unit
  | .throwsSync e => .error e
  | .resolves => .ok ()
  | .rejects _ => .ok ()

/-- Result of one unit-of-work envelope method (add, get or update): the
value returned or error thrown, the unit of work state afterwards, and
the effect trace. The aggregate returned by get is not inspected by any
claim and is abstracted away. -/
structure EnvResult where
  result : Except String Unit
  uow : UnitOfWork
  trace : Trace

/-- Embedding of IUnitOfWork.add: enter, then try awaiting repo.add,
awaiting commit and calling collectNewEvents (whose returned list is
discarded but whose draining persists); on a thrown error call exit with
the error and rethrow; in a finally step call exit with no argument. -/
def uowAdd (u : UnitOfWork) (op : RepoCall) (cb : Except String Unit)
    (t : Trace) : EnvResult :=
  let t1 := uowEnter t
  match awaitCall op with
  | .error e => ⟨.error e, u, uowExit none (uowExit (some e) t1)⟩
  | .ok _ =>
      match cb with
      | .error e => ⟨.error e, u, uowExit none (uowExit (some e) t1)⟩
      | .ok _ =>
          let t2 := { t1 with commits := t1.commits + 1 }
          match collectNewEvents u with
          | .error e => ⟨.error e, u, uowExit none (uowExit (some e) t2)⟩
          | .ok (u1, _) => ⟨.ok (), u1, uowExit none t2⟩

/-- Embedding of IUnitOfWork.get: enter, then try awaiting repo.get and
awaiting commit (no event harvesting); on a thrown error call exit with
the error and rethrow; in a finally step call exit with no argument. -/
def uowGet (u : UnitOfWork) (op : RepoCall) (cb : Except String Unit)
    (t : Trace) : EnvResult :=
  let t1 := uowEnter t
  match awaitCall op with
  | .error e => ⟨.error e, u, uowExit none (uowExit (some e) t1)⟩
  | .ok _ =>
      match cb with
      | .error e => ⟨.error e, u, uowExit none (uowExit (some e) t1)⟩
      | .ok _ =>
          let t2 := { t1 with commits := t1.commits + 1 }
          ⟨.ok (), u, uowExit none t2⟩

/-- Embedding of IUnitOfWork.update: identical in shape to add, except
that the source calls `this.repo.update(domain)` WITHOUT await, so a
promise rejection from the repository is dropped (droppedCall) and
execution continues to commit; only a synchronous throw reaches the
catch block. -/
def uowUpdate (u : UnitOfWork) (op : RepoCall) (cb : Except String Unit)
    (t : Trace) : EnvResult :=
  let t1 := uowEnter t
  match droppedCall op with
  | .error e => ⟨.error e, u, uowExit none (uowExit (some e) t1)⟩
  | .ok _ =>
      match cb with
      | .error e => ⟨.error e, u, uowExit none (uowExit (some e) t1)⟩
      | .ok _ =>
          let t2 := { t1 with commits := t1.commits + 1 }
          match collectNewEvents u with
          | .error e => ⟨.error e, u, uowExit none (uowExit (some e) t2)⟩
          | .ok (u1, _) => ⟨.ok (), u1, uowExit none t2⟩

/-- Number of closeDbSession calls an envelope exit sequence performs,
as a function of the outcome: the success path runs only the finally
exit (one close), the error path runs the catch exit and then the
finally exit (two closes). Used to state the corrected symmetric-session
property. -/
def exitCloses : Except String Unit → Nat
  | .ok _ => 1
  | .error _ => 2

/-- A registered handler on the bus, embedded as a function from the
message to the list of messages its handle call returns, or the error it
throws. -/
def HandlerFn : Type := Message → Except String (List Message)

/-- Embedding of the MessageBus handler registries: association lists
keyed by the concrete variant name (`constructor.name`), modelling the
two `Map<string, IHandler>` fields. -/
structure Bus where
  commandHandlers : List (String × HandlerFn)
  eventHandlers : List (String × HandlerFn)

/-- Embedding of MessageBus.handleCommand: look the command up by its
variant name; a missing entry throws the routing error naming the
variant; otherwise the handler runs and its returned messages are the
ones pushed onto the queue. -/
def handleCommand (bus : Bus) (m : Message) : Except String (List Message) :=
  match bus.commandHandlers.lookup m.name with
  | none => .error ("No handler found for command: " ++ m.name)
  | some f => f m

/-- Embedding of MessageBus.handleEvent: look the event up by its variant
name; a missing entry is fine and simply returns without queueing
anything; otherwise the handler runs and its returned messages are the
ones pushed onto the queue. -/
def handleEvent (bus : Bus) (m : Message) : Except String (List Message) :=
  match bus.eventHandlers.lookup m.name with
  | none => .ok []
  | some f => f m

/-- One iteration body of the MessageBus.handle while loop on the popped
message: dispatch on the instanceof tests, yielding the messages to push
at the tail of the queue, or the error that aborts the loop. -/
def busStep (bus : Bus) (m : Message) : Except String (List Message) :=
  match m.kind with
  | .command => handleCommand bus m
  | .event => handleEvent bus m
  | .other => .error (m.name ++ " was not a Command or Event")

/-- Embedding of the MessageBus.handle while loop, fuelled to keep it
total (the source loop can run forever if handlers keep producing
messages). Returns the ordered list of messages popped and dispatched to
completion, paired with `none` when the queue emptied normally or
`some e` when an error aborted the loop (in which case the remaining
queue is abandoned). -/
def runAux (bus : Bus) : Nat → List Message → List Message × Option String
  | _, [] => ([], none)
  | 0, _ :: _ => ([], some "fuel exhausted")
  | fuel + 1, m :: rest =>
      match busStep bus m with
      | .error e => ([], some e)
      | .ok out =>
          let p := runAux bus fuel (rest ++ out)
          (m :: p.1, p.2)

/-- Embedding of MessageBus.handle: reset the queue to the single initial
message and drain it. -/
def busHandle (bus : Bus) (fuel : Nat) (m : Message) : List Message × Option String :=
  runAux bus fuel [m]

theorem clear_of_empty : ∀ (d : Domain), d.events = [] →
    ({ d with events := [] } : Domain) = d
  | ⟨_, _⟩, rfl => rfl

theorem map_clear_of_cleared (l : List Domain) (h : ∀ d ∈ l, d.events = []) :
    l.map (fun d => { d with events := [] }) = l := by
  induction l with
  | nil => rfl
  | cons d tl ih =>
      simp only [List.map_cons, List.cons.injEq]
      exact ⟨clear_of_empty d (h d (by simp)),
             ih (fun x hx => h x (by simp [hx]))⟩

/-- C6: with a domain repository attached, collectNewEvents empties the
pending-event buffer of every aggregate in the seen set, returns the full
accumulated list (previously harvested events followed by the newly
drained ones, per aggregate in internal order), and an immediately
repeated call on the resulting unit of work returns the same accumulated
list with nothing drained twice. -/
theorem collectNewEvents_drains_and_accumulates (u : UnitOfWork) (seen : List Domain)
    (h : u.repo = some (.domainRepo seen)) :
    ∃ u1 evs,
      collectNewEvents u = .ok (u1, evs) ∧
      evs = u.events ++ (seen.map Domain.events).flatten ∧
      u1.repo = some (.domainRepo (seen.map (fun d => { d with events := [] }))) ∧
      (∀ s, u1.repo = some (.domainRepo s) → ∀ d ∈ s, d.events = []) ∧
      collectNewEvents u1 = .ok (u1, evs) := by
  refine ⟨{ events := u.events ++ (seen.map Domain.events).flatten,
            repo := some (.domainRepo (seen.map (fun d => { d with events := [] }))) },
          u.events ++ (seen.map Domain.events).flatten, ?_, rfl, rfl, ?_, ?_⟩
  · simp [collectNewEvents, h]
  · intro s hs d hd
    simp only [Option.some.injEq, Repo.domainRepo.injEq] at hs
    subst hs
    simp only [List.mem_map] at hd
    obtain ⟨d0, _, hd0⟩ := hd
    subst hd0
    rfl
  · have hflat : ((seen.map (fun d => ({ d with events := [] } : Domain))).map
        Domain.events).flatten = [] := by
      simp [List.map_map, Function.comp]
    have hfix : (seen.map (fun d => ({ d with events := [] } : Domain))).map
        (fun d => ({ d with events := [] } : Domain)) =
        seen.map (fun d => ({ d with events := [] } : Domain)) := by
      refine map_clear_of_cleared _ (fun d hd => ?_)
      simp only [List.mem_map] at hd
      obtain ⟨d0, _, hd0⟩ := hd
      subst hd0
      rfl
    simp [collectNewEvents, hflat, hfix]

def c6uow : UnitOfWork :=
  ⟨[⟨"Old", .event⟩],
   some (.domainRepo [⟨"j1", [⟨"A", .event⟩]⟩, ⟨"j2", [⟨"B", .event⟩, ⟨"C", .event⟩]⟩])⟩

def c6seen : List Domain :=
  [⟨"j1", [⟨"A", .event⟩]⟩, ⟨"j2", [⟨"B", .event⟩, ⟨"C", .event⟩]⟩]

theorem collectNewEvents_drains_and_accumulates_witness :
    c6uow.repo = some (.domainRepo c6seen) ∧
    ∃ u1 evs,
      collectNewEvents c6uow = .ok (u1, evs) ∧
      evs = c6uow.events ++ (c6seen.map Domain.events).flatten ∧
      u1.repo = some (.domainRepo (c6seen.map (fun d => { d with events := [] }))) ∧
      (∀ s, u1.repo = some (.domainRepo s) → ∀ d ∈ s, d.events = []) ∧
      collectNewEvents u1 = .ok (u1, evs) :=
  ⟨rfl, collectNewEvents_drains_and_accumulates c6uow c6seen rfl⟩

/-- C10: calling exit with no error argument closes the storage session
and invokes neither the rollback hook nor the exception logger; the
rollback hook runs exactly when exit is passed an error. -/
theorem uowExit_none_only_closes (t : Trace) (e : String) :
    (uowExit none t).closeDb = t.closeDb + 1 ∧
    (uowExit none t).rollbacks = t.rollbacks ∧
    (uowExit none t).uowLogs = t.uowLogs ∧
    (uowExit none t).handlerLogs = t.handlerLogs ∧
    (uowExit (some e) t).rollbacks = t.rollbacks + 1 ∧
    (uowExit (some e) t).closeDb = t.closeDb + 1 := by
  simp [uowExit]

def c1h : Handler := ⟨"H", []⟩

def c1u : UnitOfWork := ⟨[], some .externalRepo⟩

def c1m1 : Message := ⟨"M1", .event⟩

def c1m2 : Message := ⟨"M2", .event⟩

def c1r1 : HandleResult := handle c1h (some c1u) (.ok [c1m1]) (.ok ()) Trace.init

def c1r2 : HandleResult := handle c1r1.handler c1r1.uow (.ok [c1m2]) (.ok ()) c1r1.trace

/-- C1 counterexample: the outbound list is not cleared between handle
calls. A first invocation of handle on a fresh instance whose `_handle`
adds M1 returns [M1]; a second invocation on the same instance whose
`_handle` adds only M2 returns [M1, M2], which still contains the message
produced by the earlier invocation, refuting the claim that each call
returns exactly the messages produced during that invocation. -/
theorem handle_leftover_messages_counterexample :
    c1r1.result = .ok [c1m1] ∧
    c1r2.result = .ok [c1m1, c1m2] ∧
    ([c1m1, c1m2] : List Message) ≠ [c1m2] := by
  refine ⟨rfl, rfl, ?_⟩
  decide

/-- C1 amended: `_return_messages` starts empty at construction but is
never cleared by handle, so each handle call returns the accumulated
list: the messages already present before the call, then the messages
this `_handle` added, then (on the unit-of-work path) the full harvested
event list. Bootstrap registers one handler instance per variant, so a
later dispatch of the same variant receives the earlier calls messages
again. -/
theorem handle_accumulates_return_messages (h : Handler) (u : UnitOfWork)
    (seen : List Domain) (hrepo : u.repo = some (.domainRepo seen))
    (msgs : List Message) (t : Trace) :
    (handle h (some u) (.ok msgs) (.ok ()) t).result =
      .ok (h.return_messages ++ msgs ++ (u.events ++ (seen.map Domain.events).flatten)) ∧
    (handle h none (.ok msgs) (.ok ()) t).result = .ok (h.return_messages ++ msgs) := by
  constructor
  · simp [handle, collectNewEvents, hrepo]
  · simp [handle]

def c1du : UnitOfWork := ⟨[], some (.domainRepo [⟨"j1", [⟨"Ev", .event⟩]⟩])⟩

theorem handle_accumulates_return_messages_witness :
    c1du.repo = some (.domainRepo [⟨"j1", [⟨"Ev", .event⟩]⟩]) ∧
    ((handle ⟨"H", [c1m1]⟩ (some c1du) (.ok [c1m2]) (.ok ()) Trace.init).result =
       .ok ((⟨"H", [c1m1]⟩ : Handler).return_messages ++ [c1m2] ++
         (c1du.events ++ (([⟨"j1", [⟨"Ev", .event⟩]⟩] : List Domain).map Domain.events).flatten)) ∧
     (handle ⟨"H", [c1m1]⟩ none (.ok [c1m2]) (.ok ()) Trace.init).result =
       .ok ((⟨"H", [c1m1]⟩ : Handler).return_messages ++ [c1m2])) :=
  ⟨rfl, handle_accumulates_return_messages ⟨"H", [c1m1]⟩ c1du _ rfl [c1m2] Trace.init⟩

def c2res : HandleResult :=
  handle ⟨"MyHandler", []⟩ (some ⟨[], some .externalRepo⟩) (.throws [] "boom") (.ok ()) Trace.init

/-- C2 counterexample: when `_handle` throws, handle logs the error and
rethrows it and the finally step closes the session, but the finally step
calls `this.uow.exit()` with no argument, so the rollback hook is never
invoked: after a failing invocation the rollback counter is still zero,
refuting the claim that the rollback hook runs. -/
theorem handle_error_no_rollback_counterexample :
    c2res.result = .error "boom" ∧
    c2res.trace.closeDb = 1 ∧
    c2res.trace.rollbacks = 0 := by
  exact ⟨rfl, rfl, rfl⟩

/-- C2 amended: whenever `_handle`, harvesting, or the commit hook throws
during a unit-of-work-bearing handle call, the error is logged with the
handler identity, the storage session is released, and the same error is
rethrown to the caller; however the rollback hook is NOT invoked, because
the finally step calls exit without passing the error. -/
theorem handle_error_logged_closed_rethrown (h : Handler) (u : UnitOfWork) (r : Repo)
    (hrepo : u.repo = some r) (hb : HandleOutcome) (cb : Except String Unit)
    (t : Trace) (e : String)
    (herr : (handle h (some u) hb cb t).result = .error e) :
    (handle h (some u) hb cb t).trace.handlerLogs = t.handlerLogs ++ [logErrorLine h.name e] ∧
    (handle h (some u) hb cb t).trace.closeDb = t.closeDb + 1 ∧
    (handle h (some u) hb cb t).trace.rollbacks = t.rollbacks := by
  cases hb <;> cases cb <;> cases r <;>
    simp_all [handle, collectNewEvents, uowExit, uowEnter]

theorem handle_error_logged_closed_rethrown_witness :
    (⟨[], some .externalRepo⟩ : UnitOfWork).repo = some .externalRepo ∧
    c2res.result = .error "boom" ∧
    (c2res.trace.handlerLogs = Trace.init.handlerLogs ++ [logErrorLine "MyHandler" "boom"] ∧
     c2res.trace.closeDb = Trace.init.closeDb + 1 ∧
     c2res.trace.rollbacks = Trace.init.rollbacks) :=
  ⟨rfl, rfl,
   handle_error_logged_closed_rethrown ⟨"MyHandler", []⟩ ⟨[], some .externalRepo⟩
     .externalRepo rfl (.throws [] "boom") (.ok ()) Trace.init "boom" rfl⟩

/-- C3: every unit-of-work-bearing handle invocation (with a repository
wired into the unit of work) calls closeDbSession exactly once, whether
`_handle` succeeds, `_handle` throws, or the commit hook throws: the
finally step is the only place the handle template releases the
session. -/
theorem handle_closes_session_once (h : Handler) (u : UnitOfWork) (r : Repo)
    (hrepo : u.repo = some r) (hb : HandleOutcome) (cb : Except String Unit)
    (t : Trace) :
    (handle h (some u) hb cb t).trace.closeDb = t.closeDb + 1 ∧
    (handle h (some u) hb cb t).trace.setDb = t.setDb + 1 := by
  cases hb <;> cases cb <;> cases r <;>
    simp_all [handle, collectNewEvents, uowExit, uowEnter]

theorem handle_closes_session_once_witness :
    (⟨[], some .externalRepo⟩ : UnitOfWork).repo = some .externalRepo ∧
    ((handle ⟨"H", []⟩ (some ⟨[], some .externalRepo⟩) (.ok []) (.error "commit fail")
        Trace.init).trace.closeDb = Trace.init.closeDb + 1 ∧
     (handle ⟨"H", []⟩ (some ⟨[], some .externalRepo⟩) (.ok []) (.error "commit fail")
        Trace.init).trace.setDb = Trace.init.setDb + 1) :=
  ⟨rfl, handle_closes_session_once ⟨"H", []⟩ ⟨[], some .externalRepo⟩ .externalRepo rfl
    (.ok []) (.error "commit fail") Trace.init⟩

def c4res : EnvResult :=
  uowAdd ⟨[], some .externalRepo⟩ (.throwsSync "x") (.ok ()) Trace.init

/-- C4 counterexample: when the repository operation inside
IUnitOfWork.add throws, the catch block calls exit(error) and the finally
block then calls exit() again, so closeDbSession runs twice in that
single add call, refuting the claim that closeDbSession is invoked
exactly once on the error path. -/
theorem uow_envelope_double_close_counterexample :
    c4res.result = .error "x" ∧
    c4res.trace.setDb = 1 ∧
    c4res.trace.closeDb = 2 ∧
    c4res.trace.closeDb ≠ 1 := by
  refine ⟨rfl, rfl, rfl, ?_⟩
  decide

/-- C4 amended: for each single call to add, get or update, setDbSession
is invoked exactly once on both paths, and closeDbSession is invoked
exactly once on the success path but exactly twice on the error path
(once from the catch-block exit(error) and once from the finally-block
exit()). -/
theorem uow_envelope_sessions (u : UnitOfWork) (op : RepoCall)
    (cb : Except String Unit) (t : Trace) :
    ((uowAdd u op cb t).trace.setDb = t.setDb + 1 ∧
     (uowAdd u op cb t).trace.closeDb = t.closeDb + exitCloses (uowAdd u op cb t).result) ∧
    ((uowGet u op cb t).trace.setDb = t.setDb + 1 ∧
     (uowGet u op cb t).trace.closeDb = t.closeDb + exitCloses (uowGet u op cb t).result) ∧
    ((uowUpdate u op cb t).trace.setDb = t.setDb + 1 ∧
     (uowUpdate u op cb t).trace.closeDb = t.closeDb + exitCloses (uowUpdate u op cb t).result) := by
  obtain ⟨evs, ro⟩ := u
  cases ro with
  | none =>
      cases op <;> cases cb <;>
        simp [uowAdd, uowGet, uowUpdate, collectNewEvents, uowEnter, uowExit,
          exitCloses, awaitCall, droppedCall]
  | some r =>
      cases r with
      | domainRepo seen =>
          cases op <;> cases cb <;>
            simp [uowAdd, uowGet, uowUpdate, collectNewEvents, uowEnter, uowExit,
              exitCloses, awaitCall, droppedCall]
      | externalRepo =>
          cases op <;> cases cb <;>
            simp [uowAdd, uowGet, uowUpdate, collectNewEvents, uowEnter, uowExit,
              exitCloses, awaitCall, droppedCall]

def c5res : EnvResult :=
  uowUpdate ⟨[], some .externalRepo⟩ (.rejects "db down") (.ok ()) Trace.init

/-- C5: demonstration of the code bug at the failing input. The source
calls this.repo.update(domain) without await, so when the repository
update returns a promise that rejects, the rejection is dropped: the
envelope commits, performs no rollback, logs nothing in the unit of work,
and resolves normally, instead of running the error-path exit and
rethrowing as the specification requires. The last two conjuncts contrast
this with IUnitOfWork.add, whose awaited repository call does surface the
same rejection and trigger the rollback path. -/
theorem uowUpdate_rejected_promise_commits :
    c5res.result = .ok () ∧
    c5res.trace.commits = 1 ∧
    c5res.trace.rollbacks = 0 ∧
    c5res.trace.uowLogs = [] ∧
    c5res.trace.closeDb = 1 ∧
    (uowAdd ⟨[], some .externalRepo⟩ (.rejects "db down") (.ok ()) Trace.init).result =
      .error "db down" ∧
    (uowAdd ⟨[], some .externalRepo⟩ (.rejects "db down") (.ok ()) Trace.init).trace.rollbacks = 1 :=
  ⟨rfl, rfl, rfl, rfl, rfl, rfl, rfl⟩

/-- C7: when the popped message is routed to a registered handler (for
commands via the command registry, for events via the event registry)
whose handle call returns the messages `out`, those messages are pushed
at the tail of the queue in the returned order, and the loop goes on to
process the rest of the queue first: the dispatch trace records the
current message and then continues on `rest ++ out`, so every message
already queued is dispatched strictly before any of the newly returned
ones (strict FIFO, breadth first by arrival). -/
theorem bus_fifo (bus : Bus) (m : Message) (rest out : List Message)
    (f : HandlerFn) (fuel : Nat)
    (hroute : (m.kind = .command ∧ bus.commandHandlers.lookup m.name = some f) ∨
              (m.kind = .event ∧ bus.eventHandlers.lookup m.name = some f))
    (hf : f m = .ok out) :
    busStep bus m = .ok out ∧
    runAux bus (fuel + 1) (m :: rest) =
      (m :: (runAux bus fuel (rest ++ out)).1, (runAux bus fuel (rest ++ out)).2) := by
  have hstep : busStep bus m = .ok out := by
    rcases hroute with ⟨hk, hl⟩ | ⟨hk, hl⟩ <;>
      simp [busStep, handleCommand, handleEvent, hk, hl, hf]
  exact ⟨hstep, by simp [runAux, hstep]⟩

def c7f : HandlerFn := fun _ => .ok [⟨"E1", .event⟩, ⟨"E2", .event⟩]

def c7bus : Bus := ⟨[("A", c7f)], []⟩

def c7m : Message := ⟨"A", .command⟩

theorem bus_fifo_witness :
    ((c7m.kind = .command ∧ c7bus.commandHandlers.lookup c7m.name = some c7f) ∨
     (c7m.kind = .event ∧ c7bus.eventHandlers.lookup c7m.name = some c7f)) ∧
    c7f c7m = .ok [⟨"E1", .event⟩, ⟨"E2", .event⟩] ∧
    (busStep c7bus c7m = .ok [⟨"E1", .event⟩, ⟨"E2", .event⟩] ∧
     runAux c7bus 4 (c7m :: [⟨"X", .event⟩]) =
       (c7m :: (runAux c7bus 3 ([⟨"X", .event⟩] ++ [⟨"E1", .event⟩, ⟨"E2", .event⟩])).1,
        (runAux c7bus 3 ([⟨"X", .event⟩] ++ [⟨"E1", .event⟩, ⟨"E2", .event⟩])).2)) :=
  ⟨Or.inl ⟨rfl, rfl⟩, rfl,
   bus_fifo c7bus c7m [⟨"X", .event⟩] [⟨"E1", .event⟩, ⟨"E2", .event⟩] c7f 3
     (Or.inl ⟨rfl, rfl⟩) rfl⟩

/-- C8: a Command whose variant has no entry in the command registry makes
the loop throw the routing error naming that variant, and the whole chain
aborts: the run returns this error and none of the messages still queued
behind the command are dispatched. -/
theorem bus_missing_command_handler_aborts (bus : Bus) (m : Message)
    (rest : List Message) (fuel : Nat)
    (hk : m.kind = .command) (hl : bus.commandHandlers.lookup m.name = none) :
    busStep bus m = .error ("No handler found for command: " ++ m.name) ∧
    runAux bus (fuel + 1) (m :: rest) =
      ([], some ("No handler found for command: " ++ m.name)) := by
  have hstep : busStep bus m = .error ("No handler found for command: " ++ m.name) := by
    simp [busStep, handleCommand, hk, hl]
  exact ⟨hstep, by simp [runAux, hstep]⟩

theorem bus_missing_command_handler_aborts_witness :
    (⟨"Zap", .command⟩ : Message).kind = .command ∧
    (⟨[], [("E", c7f)]⟩ : Bus).commandHandlers.lookup (⟨"Zap", .command⟩ : Message).name = none ∧
    (busStep ⟨[], [("E", c7f)]⟩ ⟨"Zap", .command⟩ =
       .error ("No handler found for command: " ++ (⟨"Zap", .command⟩ : Message).name) ∧
     runAux ⟨[], [("E", c7f)]⟩ (2 + 1) (⟨"Zap", .command⟩ :: [⟨"Q", .event⟩]) =
       ([], some ("No handler found for command: " ++ (⟨"Zap", .command⟩ : Message).name))) :=
  ⟨rfl, rfl,
   bus_missing_command_handler_aborts ⟨[], [("E", c7f)]⟩ ⟨"Zap", .command⟩ [⟨"Q", .event⟩] 2
     rfl rfl⟩

theorem runAux_all_unhandled_events (bus : Bus) (q : List Message) :
    ∀ fuel : Nat,
      (∀ x ∈ q, x.kind = .event ∧ bus.eventHandlers.lookup x.name = none) →
      q.length ≤ fuel →
      runAux bus fuel q = (q, none) := by
  induction q with
  | nil => intro fuel _ _; cases fuel <;> rfl
  | cons x q ih =>
      intro fuel hq hlen
      cases fuel with
      | zero => simp at hlen
      | succ f =>
          have hx := hq x (by simp)
          have hstep : busStep bus x = .ok [] := by
            simp [busStep, handleEvent, hx.1, hx.2]
          have hrec : runAux bus f q = (q, none) :=
            ih f (fun y hy => hq y (by simp [hy])) (Nat.succ_le_succ_iff.mp hlen)
          simp [runAux, hstep, hrec]

/-- C9: an Event whose variant has no entry in the event registry is
dropped without raising: the step pushes no new messages and the loop
proceeds with the remaining queue; consequently a queue consisting only
of unhandled events is drained to completion with no error. -/
theorem bus_unhandled_event_dropped (bus : Bus) (m : Message)
    (rest q : List Message) (fuel : Nat)
    (hk : m.kind = .event) (hl : bus.eventHandlers.lookup m.name = none)
    (hq : ∀ x ∈ q, x.kind = .event ∧ bus.eventHandlers.lookup x.name = none)
    (hfuel : q.length ≤ fuel) :
    busStep bus m = .ok [] ∧
    runAux bus (fuel + 1) (m :: rest) =
      (m :: (runAux bus fuel rest).1, (runAux bus fuel rest).2) ∧
    runAux bus fuel q = (q, none) := by
  have hstep : busStep bus m = .ok [] := by
    simp [busStep, handleEvent, hk, hl]
  refine ⟨hstep, ?_, runAux_all_unhandled_events bus q fuel hq hfuel⟩
  simp [runAux, hstep]

theorem bus_unhandled_event_dropped_witness :
    (⟨"E0", .event⟩ : Message).kind = .event ∧
    (⟨[("A", c7f)], []⟩ : Bus).eventHandlers.lookup (⟨"E0", .event⟩ : Message).name = none ∧
    (∀ x ∈ ([⟨"E1", .event⟩, ⟨"E2", .event⟩] : List Message),
       x.kind = .event ∧ (⟨[("A", c7f)], []⟩ : Bus).eventHandlers.lookup x.name = none) ∧
    ([⟨"E1", .event⟩, ⟨"E2", .event⟩] : List Message).length ≤ 2 ∧
    (busStep ⟨[("A", c7f)], []⟩ ⟨"E0", .event⟩ = .ok [] ∧
     runAux ⟨[("A", c7f)], []⟩ (2 + 1) (⟨"E0", .event⟩ :: [⟨"E9", .event⟩]) =
       (⟨"E0", .event⟩ :: (runAux ⟨[("A", c7f)], []⟩ 2 [⟨"E9", .event⟩]).1,
        (runAux ⟨[("A", c7f)], []⟩ 2 [⟨"E9", .event⟩]).2) ∧
     runAux ⟨[("A", c7f)], []⟩ 2 [⟨"E1", .event⟩, ⟨"E2", .event⟩] =
       ([⟨"E1", .event⟩, ⟨"E2", .event⟩], none)) :=
  ⟨rfl, rfl,
   (by intro x hx; simp only [List.mem_cons, List.not_mem_nil, or_false] at hx
       rcases hx with rfl | rfl <;> exact ⟨rfl, rfl⟩),
   by decide,
   bus_unhandled_event_dropped ⟨[("A", c7f)], []⟩ ⟨"E0", .event⟩ [⟨"E9", .event⟩]
     [⟨"E1", .event⟩, ⟨"E2", .event⟩] 2 rfl rfl
     (by intro x hx; simp only [List.mem_cons, List.not_mem_nil, or_false] at hx
         rcases hx with rfl | rfl <;> exact ⟨rfl, rfl⟩)
     (by decide)⟩

end DrivenMicro
